import Mathlib

set_option maxRecDepth 1000000

/-!
Verification development for the report-mailer script (`mail-test.py`).

The script reads a spreadsheet, renders it as an HTML table
(`build_html_table`), and sends it by SMTP (`send_email`), driven by `main`.
Pure string construction is embedded directly; the effectful parts
(file access, SMTP session) are embedded as a trace semantics: each run
produces the list of observable events (console prints, file opens, SMTP
operations), with the outcomes of the external operations supplied by a
`World` of oracles.  Each oracle is consulted at most once per run, matching
the straight-line control flow of the script.
-/

/-- Tabular dataset as consumed by `build_html_table`: ordered column names
and rows of cells.  A cell is `none` when the spreadsheet value is
missing/NaN (the `pd.notna` test in the source is false), and `some s` when
it is present, `s` being the string rendering that Python interpolation
(`f"...{value}..."`) produces for it. -/
structure DataFrame where
  columns : List String
  rows : List (List (Option String))

/-- Cell text used by the interpolation on line 43-44 of the source:
`value = row[col] if pd.notna(row[col]) else ""` followed by `{value}`. -/
def renderCell (c : Option String) : String :=
  match c with
  | some v => v
  | none => ""

/-- Opening chunk of the table (the triple-quoted literal on lines 32-35). -/
def tableOpen : String :=
  "\n    <table border=\"1\" cellspacing=\"0\" cellpadding=\"5\" style=\"border-collapse: collapse; width: 100%; word-wrap: break-word;\">\n    <tr style=\"background-color: lightblue; font-weight: bold; text-align: center;\">\n    "

/-- Header cell, line 37: `f"<th style='padding: 5px; white-space: nowrap;'>{col}</th>"`. -/
def thCell (col : String) : String :=
  "<th style=\x27padding: 5px; white-space: nowrap;\x27>" ++ col ++ "</th>"

/-- Body cell, line 44: `f"<td style='padding: 5px; word-wrap: break-word;'>{value}</td>"`. -/
def tdCell (c : Option String) : String :=
  "<td style=\x27padding: 5px; word-wrap: break-word;\x27>" ++ renderCell c ++ "</td>"

/-- `build_html_table` (source lines 31-48), translated loop by loop: the
header `for col in df.columns` appends one `<th>` per column, then each row
of `df.iterrows()` appends `<tr>`, one `<td>` per column (reading the row's
cell for that column, here positionally via `zip`), and `</tr>`. -/
def build_html_table (df : DataFrame) : String :=
  let html_table := tableOpen
  let html_table := df.columns.foldl (fun acc col => acc ++ thCell col) html_table
  let html_table := html_table ++ "</tr>"
  let html_table := df.rows.foldl
    (fun acc row =>
      let acc := acc ++ "<tr>"
      let acc := (df.columns.zip row).foldl (fun a cv => a ++ tdCell cv.2) acc
      acc ++ "</tr>")
    html_table
  html_table ++ "</table>"

/-- Characters of the fixed opening of a header cell. -/
def thOpenChars : List Char :=
  "<th style=\x27padding: 5px; white-space: nowrap;\x27>".data

/-- Characters of the fixed opening of a body cell. -/
def tdOpenChars : List Char :=
  "<td style=\x27padding: 5px; word-wrap: break-word;\x27>".data

/-- Character-level view of a header cell. -/
def thCellChars (col : String) : List Char :=
  thOpenChars ++ (col.data ++ "</th>".data)

/-- Character-level view of a body cell. -/
def tdCellChars (c : Option String) : List Char :=
  tdOpenChars ++ ((renderCell c).data ++ "</td>".data)

/-- The body-cell segments of one row, in column order. -/
def cellSegs (cols : List String) (row : List (Option String)) : List (List Char) :=
  (cols.zip row).map (fun cv => tdCellChars cv.2)

/-- Character-level view of one rendered body row. -/
def rowChars (cols : List String) (row : List (Option String)) : List Char :=
  "<tr>".data ++ ((cellSegs cols row).flatten ++ "</tr>".data)

/-- Character-level view of the whole rendered table. -/
def htmlChars (df : DataFrame) : List Char :=
  tableOpen.data ++
    ((df.columns.map thCellChars).flatten ++
      ("</tr>".data ++
        ((df.rows.map (rowChars df.columns)).flatten ++ "</table>".data)))

/-- Pattern opening a header cell. -/
def thPat : List Char := ['<', 't', 'h']

/-- Pattern opening a body cell. -/
def tdPat : List Char := ['<', 't', 'd']

/-- Pattern opening a body row.  The header row is opened by `<tr style=`,
so this pattern matches exactly the body-row openings. -/
def trPat : List Char := ['<', 't', 'r', '>']

/-- Does `pat` occur at the head of `s`? -/
def startsList : List Char → List Char → Bool
  | [], _ => true
  | _ :: _, [] => false
  | p :: ps, c :: cs => p == c && startsList ps cs

/-- Number of positions of `s` at which `pat` occurs. -/
def countOcc (pat : List Char) : List Char → Nat
  | [] => 0
  | c :: cs => (if startsList pat (c :: cs) then 1 else 0) + countOcc pat cs

/-- The members of `subs` occur in `s`, pairwise disjoint and in order. -/
def appearsInOrder : List (List Char) → List Char → Prop
  | [], _ => True
  | p :: ps, s => ∃ x y, s = x ++ p ++ y ∧ appearsInOrder ps y

/-- `p` occurs contiguously (verbatim) somewhere in `s`. -/
def containsSeg (p s : List Char) : Prop :=
  ∃ x y, s = x ++ (p ++ y)

/-- The header-cell segments of the rendered table, in column order. -/
def headerSegs (df : DataFrame) : List (List Char) :=
  df.columns.map thCellChars

/-- All body-cell segments of the rendered table, row by row, each row's
cells in column order. -/
def bodySegs (df : DataFrame) : List (List Char) :=
  (df.rows.map (cellSegs df.columns)).flatten

/-- Replace every missing cell by an explicitly-present empty string. -/
def normalizeDf (df : DataFrame) : DataFrame :=
  { columns := df.columns
    rows := df.rows.map (List.map (fun c => some (renderCell c))) }

/-- Every row has exactly one cell per column (the dataset invariant). -/
def RowsWf (df : DataFrame) : Prop :=
  ∀ row ∈ df.rows, row.length = df.columns.length

/-- No column name or rendered cell value contains the character that opens
an HTML tag, so tag-counting in the output reflects the table structure. -/
def CleanDf (df : DataFrame) : Prop :=
  (∀ col ∈ df.columns, '<' ∉ col.data) ∧
    ∀ row ∈ df.rows, ∀ c ∈ row, '<' ∉ (renderCell c).data

/-- MIME parts attached to the outgoing message: the HTML body part
(line 63) and the optional `application/octet-stream` attachment part
(lines 68-75).  `payload` holds the bytes read from the attachment file;
the base64 transfer encoding applied by `encoders.encode_base64` and the
MIME serialization are email-library details outside this model.
`filename` is the value placed in the `Content-Disposition` header. -/
inductive MimePart where
  | html (content : String)
  | octetStream (payload : String) (filename : String)
deriving DecidableEq

/-- The multipart message built on lines 57-63: `From`, `To`, `Cc` and
`Subject` headers plus the list of attached parts. -/
structure Message where
  msgFrom : String
  msgTo : String
  msgCc : String
  msgSubject : String
  parts : List MimePart
deriving DecidableEq

/-- Observable events of a run: console prints, the attachment-file open,
the spreadsheet read, and the SMTP operations.  An SMTP operation event
records that the corresponding call was made with these arguments (the call
may still fail, per the `World` oracle). -/
inductive Event where
  | print (line : String)
  | fileOpen (path : String)
  | readExcel (path : String) (sheet : Nat)
  | smtpConnect (host : String) (port : Nat)
  | starttls
  | login (user : String) (password : String)
  | sendmail (fromAddr : String) (rcpts : List String) (msg : Message)
  | quit
deriving DecidableEq

/-- Outcomes of the external operations `send_email` performs.  `readFile`
models `open(path, "rb")` + `f.read()` (lines 67-69): an error or the bytes.
The `Except String Unit` fields model whether `smtplib.SMTP`, `starttls`,
`login`, `sendmail` and `quit` raise, the error carrying `str(e)`. -/
structure World where
  readFile : String → Except String String
  connectRes : Except String Unit
  starttlsRes : Except String Unit
  loginRes : Except String Unit
  sendRes : Except String Unit
  quitRes : Except String Unit

/-- Python `", ".join(xs)` (lines 59-60 and 92). -/
def commaJoin : List String → String
  | [] => ""
  | [s] => s
  | s :: rest => s ++ ", " ++ commaJoin rest

/-- One element of the Python `repr` of a list of strings. -/
def quoteItem (s : String) : String := "\x27" ++ s ++ "\x27"

/-- Python `repr` of a list of strings, as interpolated by
`f"...{all_recipients}..."` on line 94: `['a', 'b']`. -/
def pyListRepr (l : List String) : String :=
  "[" ++ commaJoin (l.map quoteItem) ++ "]"

/-- Python truthiness of the `attachment_path` argument as tested by
`if attachment_path:` on line 65: `None` and `""` are falsy. -/
def pyTruthy : Option String → Bool
  | none => false
  | some s => !s.isEmpty

/-- `attachment_path.split('/')[-1]` (line 73). -/
def basename (p : String) : String :=
  (p.splitOn "/").getLastD ""

/-- The message as built before the attachment step (lines 57-63). -/
def mkMessage (sender_email : String) (to_emails cc_emails : List String)
    (subject html_content : String) : Message :=
  { msgFrom := sender_email
    msgTo := commaJoin to_emails
    msgCc := commaJoin cc_emails
    msgSubject := subject
    parts := [MimePart.html html_content] }

/-- Attach the optional part produced by the attachment step to the
message (`msg.attach(part)` on line 75). -/
def attachParts (msg : Message) (part? : Option MimePart) : Message :=
  match part? with
  | some part => { msg with parts := msg.parts ++ [part] }
  | none => msg

/-- The attachment step (lines 65-79).  When `attachment_path` is truthy the
file is opened and read; on failure the `except` branch prints the error and
`send_email` returns (`Except.error` carries the events of that aborted
run).  On success it yields the events so far and the part to attach. -/
def attachStep (w : World) (attachment_path : Option String) :
    Except (List Event) (List Event × Option MimePart) :=
  if pyTruthy attachment_path then
    let path := attachment_path.getD ""
    match w.readFile path with
    | .error e =>
        .error [Event.fileOpen path, Event.print ("❌ Failed to attach file: " ++ e)]
    | .ok bytes =>
        .ok ([Event.fileOpen path, Event.print ("📎 Attached file: " ++ path)],
          some (MimePart.octetStream bytes (basename path)))
  else
    .ok ([], none)

/-- Fixed SMTP host (line 54). -/
def smtp_server : String := "smtp.office365.com"

/-- Fixed SMTP port (line 55). -/
def smtp_port : Nat := 587

/-- The `try` block of the SMTP session (lines 83-92): connect, starttls,
login, sendmail, quit, success print — each step consulted in order, the
first failure aborting the block with its error (to be handled by the
`except` on line 93).  Returns the events performed and the error, if any. -/
def smtpTry (w : World) (sender_email sender_password : String)
    (all_recipients : List String) (msg : Message) : List Event × Option String :=
  let evs := [Event.print ("📤 Connecting to SMTP server " ++ smtp_server ++ ":" ++ toString smtp_port ++ "..."),
    Event.smtpConnect smtp_server smtp_port]
  match w.connectRes with
  | .error e => (evs, some e)
  | .ok _ =>
    let evs := evs ++ [Event.starttls]
    match w.starttlsRes with
    | .error e => (evs, some e)
    | .ok _ =>
      let evs := evs ++ [Event.print "🔐 TLS connection established.", Event.login sender_email sender_password]
      match w.loginRes with
      | .error e => (evs, some e)
      | .ok _ =>
        let evs := evs ++ [Event.print "🔑 Logged in to SMTP server.",
          Event.sendmail sender_email all_recipients msg]
        match w.sendRes with
        | .error e => (evs, some e)
        | .ok _ =>
          let evs := evs ++ [Event.quit]
          match w.quitRes with
          | .error e => (evs, some e)
          | .ok _ =>
            (evs ++ [Event.print ("✅ Email sent to: " ++ commaJoin all_recipients)], none)

/-- `send_email` (lines 53-94): build the message, run the attachment step
(returning early on attachment failure), set
`all_recipients = to_emails + cc_emails` (line 81), then run the SMTP
session; any error of the session is caught by the `except` on line 93,
which prints the failure line interpolating the Python repr of
`all_recipients` and returns normally. -/
def send_email (w : World) (sender_email sender_password : String)
    (to_emails cc_emails : List String) (subject : String) (html_content : String)
    (attachment_path : Option String) : List Event :=
  let msg := mkMessage sender_email to_emails cc_emails subject html_content
  match attachStep w attachment_path with
  | .error evs => evs
  | .ok (evs, part?) =>
    let msg := attachParts msg part?
    let all_recipients := to_emails ++ cc_emails
    match smtpTry w sender_email sender_password all_recipients msg with
    | (sevs, none) => evs ++ sevs
    | (sevs, some e) =>
        evs ++ sevs ++
          [Event.print ("❌ Failed to send email to " ++ pyListRepr all_recipients ++ ": " ++ e)]

/-- The error of the first failing SMTP-session step, if any, in the order
the session performs them. -/
def firstSmtpError (w : World) : Option String :=
  match w.connectRes with
  | .error e => some e
  | .ok _ =>
    match w.starttlsRes with
    | .error e => some e
    | .ok _ =>
      match w.loginRes with
      | .error e => some e
      | .ok _ =>
        match w.sendRes with
        | .error e => some e
        | .ok _ =>
          match w.quitRes with
          | .error e => some e
          | .ok _ => none

/-- Static configuration (lines 23-26). -/
def recipients : List String := ["t_enaganti.kkumar@tatadigital.com"]

/-- Static CC list (line 24). -/
def cc_list : List String := ["t_enaganti.kkumar@tatadigital.com"]

/-- Spreadsheet path (line 25). -/
def input_file : String := "NonFS_NonCompliant_Repos.xlsx"

/-- Sheet index (line 26). -/
def sheet_index : Nat := 0

/-- Key-vault endpoint (line 13); the credential values fetched from it at
module load (lines 15-21) are external inputs, modelled as the
`sender_email`/`sender_password` parameters of `send_email` and `main`. -/
def key_vault_url : String := "https://akv-tdsif-sif-ci-sec-01.vault.azure.net/"

/-- Subject line passed by `main` (line 132). -/
def subjectLine : String :=
  "Non-Compliant NonFS Repos - Checkmarx Policy Enforcement -- testing"

/-- Text of the mail body before the interpolated table (lines 113-121). -/
def bodyTop : String :=
  "\n    <p>Hi All,</p>\n    <p>As we are aware that CheckMarx policy enforcement is implemented in repos on all branches, however we found non-compliance on repos for the following cases:</p>\n    <ul>\n    <li>Branch protection policy check - Status checks to pass before merging is disabled</li>\n    <li>If Branch Protection policy is enabled, the corresponding pipeline is missing for the repo</li>\n    <li>If above two conditions are met, PR validation check is missing</li>\n    </ul>\n    <p>Below is the count of non-compliant repos per application, please share the ETA as per the table:</p>\n    "

/-- Text of the mail body after the interpolated table (lines 123-126). -/
def bodyBottom : String :=
  "\n    <p>Request you to take action on the non-compliant repos as per attached sheet.</p>\n    <p>Please feel free to connect @Enaganti KKumar or @Sahil Gupta in case of any queries.</p>\n    <p>Thanks,<br>Infosec Team</p>\n    "

/-- Oracles for `main`: the spreadsheet read (`pd.read_excel`, line 103) and
the mail world. -/
structure MainWorld where
  readExcel : String → Nat → Except String DataFrame
  mail : World

namespace script

/-- `main` (lines 99-135): read the spreadsheet inside a `try` whose
`except` prints the error and returns; on success build the HTML table,
wrap it in the mail body, and call `send_email` with the static recipient
lists and the spreadsheet as attachment.  (Namespaced because a root-level
`main` is reserved by Lean.) -/
def main (w : MainWorld) (sender_email sender_password : String) : List Event :=
  let evs := [Event.print "🔄 Starting script...",
    Event.print ("📂 Reading Excel file: " ++ input_file),
    Event.readExcel input_file sheet_index]
  match w.readExcel input_file sheet_index with
  | .error e => evs ++ [Event.print ("❌ Error reading Excel file: " ++ e)]
  | .ok df =>
    let evs := evs ++ [Event.print "✅ Excel file loaded successfully.",
      Event.print "🧱 Building HTML table..."]
    let html_table := build_html_table df
    let evs := evs ++ [Event.print "✅ HTML table created."]
    let html_content := bodyTop ++ html_table ++ bodyBottom
    let evs := evs ++ [Event.print "📧 Preparing to send email..."]
    evs ++ send_email w.mail sender_email sender_password recipients cc_list
      subjectLine html_content (some input_file)

end script

/-- World in which every external operation succeeds. -/
def allOkWorld : World :=
  { readFile := fun _ => .ok "BYTES"
    connectRes := .ok ()
    starttlsRes := .ok ()
    loginRes := .ok ()
    sendRes := .ok ()
    quitRes := .ok () }

/-- World in which SMTP authentication fails. -/
def loginFailWorld : World :=
  { allOkWorld with loginRes := .error "535 authentication failed" }

/-- World in which the attachment file cannot be opened. -/
def badAttachWorld : World :=
  { allOkWorld with readFile := fun _ => .error "No such file or directory" }

/-- Main-script world in which the spreadsheet read fails. -/
def readFailMainWorld : MainWorld :=
  { readExcel := fun _ _ => .error "File not found", mail := allOkWorld }

/-! ### String-to-character bridge -/

theorem foldl_data {α : Type} (g : String → α → String) (f : α → List Char)
    (hg : ∀ acc x, (g acc x).data = acc.data ++ f x) (l : List α) :
    ∀ init : String, (l.foldl g init).data = init.data ++ (l.map f).flatten := by
  induction l with
  | nil => intro init; simp
  | cons x l ih =>
    intro init
    simp only [List.foldl_cons, List.map_cons, List.flatten_cons]
    rw [ih (g init x), hg init x, List.append_assoc]

theorem thCell_data (col : String) : (thCell col).data = thCellChars col := by
  simp [thCell, thCellChars, thOpenChars, String.data_append, List.append_assoc]

theorem tdCell_data (c : Option String) : (tdCell c).data = tdCellChars c := by
  simp [tdCell, tdCellChars, tdOpenChars, String.data_append, List.append_assoc]

theorem build_html_table_data (df : DataFrame) :
    (build_html_table df).data = htmlChars df := by
  have hcell : ∀ (a : String) (cv : String × Option String),
      (a ++ tdCell cv.2).data = a.data ++ tdCellChars cv.2 := by
    intro a cv; rw [String.data_append, tdCell_data]
  have hhead : ∀ (acc : String) (col : String),
      (acc ++ thCell col).data = acc.data ++ thCellChars col := by
    intro acc col; rw [String.data_append, thCell_data]
  have hrowg : ∀ (acc : String) (row : List (Option String)),
      (((df.columns.zip row).foldl (fun a cv => a ++ tdCell cv.2) (acc ++ "<tr>")) ++ "</tr>").data
        = acc.data ++ rowChars df.columns row := by
    intro acc row
    rw [String.data_append,
      foldl_data _ (fun cv => tdCellChars cv.2) hcell (df.columns.zip row) (acc ++ "<tr>"),
      String.data_append]
    simp [rowChars, cellSegs, List.append_assoc]
  show ((df.rows.foldl
      (fun acc row =>
        ((df.columns.zip row).foldl (fun a cv => a ++ tdCell cv.2) (acc ++ "<tr>")) ++ "</tr>")
      ((df.columns.foldl (fun acc col => acc ++ thCell col) tableOpen) ++ "</tr>"))
      ++ "</table>").data = htmlChars df
  rw [String.data_append, foldl_data _ (rowChars df.columns) hrowg df.rows,
    String.data_append, foldl_data _ thCellChars hhead df.columns]
  simp [htmlChars, headerSegs, List.append_assoc]

/-! ### Occurrence counting -/

theorem startsList_append_of_le (p : List Char) :
    ∀ (x y : List Char), p.length ≤ x.length → startsList p (x ++ y) = startsList p x := by
  induction p with
  | nil => intro x y _; rfl
  | cons q ps ih =>
    intro x y h
    cases x with
    | nil => simp at h
    | cons c x' =>
      show (q == c && startsList ps (x' ++ y)) = (q == c && startsList ps x')
      rw [ih x' y (by simpa using h)]

theorem startsList_false_of_lt (p : List Char) :
    ∀ x : List Char, x.length < p.length → startsList p x = false := by
  induction p with
  | nil => intro x h; simp at h
  | cons q ps ih =>
    intro x h
    cases x with
    | nil => rfl
    | cons c x' =>
      show (q == c && startsList ps x') = false
      rw [ih x' (by simpa using h)]
      exact Bool.and_false _

theorem countOcc_append3 (ps : List Char) (hlen : ps.length ≤ 3) (b : List Char) :
    ∀ a : List Char, '<' ∉ a.drop (a.length - 3) →
      countOcc ('<' :: ps) (a ++ b) = countOcc ('<' :: ps) a + countOcc ('<' :: ps) b := by
  intro a
  induction a with
  | nil => intro _; simp [countOcc]
  | cons c a' ih =>
    intro ha
    have ha' : '<' ∉ a'.drop (a'.length - 3) := by
      intro hmem
      rcases Nat.lt_or_ge a'.length 3 with hl | hl
      · apply ha
        have h0 : (c :: a').length - 3 = 0 := by simp only [List.length_cons]; omega
        rw [h0, List.drop_zero]
        exact List.mem_cons_of_mem c (List.mem_of_mem_drop hmem)
      · apply ha
        have h1 : (c :: a').length - 3 = (a'.length - 3) + 1 := by
          simp only [List.length_cons]; omega
        rw [h1, List.drop_succ_cons]
        exact hmem
    have hstart : startsList ('<' :: ps) (c :: (a' ++ b)) = startsList ('<' :: ps) (c :: a') := by
      rcases Nat.lt_or_ge (c :: a').length ('<' :: ps).length with hl | hl
      · have hc : c ≠ '<' := by
          intro hc
          apply ha
          have h0 : (c :: a').length - 3 = 0 := by
            simp only [List.length_cons] at hl ⊢
            omega
          rw [h0, List.drop_zero, hc]
          exact List.mem_cons_self _ _
        have hb : ('<' == c) = false := beq_eq_false_iff_ne.mpr (Ne.symm hc)
        show ('<' == c && startsList ps (a' ++ b)) = ('<' == c && startsList ps a')
        rw [hb, Bool.false_and, Bool.false_and]
      · have := startsList_append_of_le ('<' :: ps) (c :: a') b hl
        simpa using this
    have e1 : countOcc ('<' :: ps) ((c :: a') ++ b)
        = (if startsList ('<' :: ps) (c :: (a' ++ b)) then 1 else 0)
            + countOcc ('<' :: ps) (a' ++ b) := rfl
    have e2 : countOcc ('<' :: ps) (c :: a')
        = (if startsList ('<' :: ps) (c :: a') then 1 else 0) + countOcc ('<' :: ps) a' := rfl
    rw [e1, hstart, ih ha', e2]
    omega

theorem countOcc_append_nolt (ps : List Char) (b : List Char) :
    ∀ a : List Char, '<' ∉ a → countOcc ('<' :: ps) (a ++ b) = countOcc ('<' :: ps) b := by
  intro a
  induction a with
  | nil => intro _; simp
  | cons c a' ih =>
    intro ha
    have hc : ('<' == c) = false := by
      refine beq_eq_false_iff_ne.mpr ?_
      intro hcc
      exact ha (by rw [← hcc]; exact List.mem_cons_self _ _)
    have e1 : countOcc ('<' :: ps) ((c :: a') ++ b)
        = (if startsList ('<' :: ps) (c :: (a' ++ b)) then 1 else 0)
            + countOcc ('<' :: ps) (a' ++ b) := rfl
    have hs : startsList ('<' :: ps) (c :: (a' ++ b)) = false := by
      show ('<' == c && startsList ps (a' ++ b)) = false
      rw [hc, Bool.false_and]
    rw [e1, hs, ih (fun hm => ha (List.mem_cons_of_mem c hm))]
    simp

theorem countOcc_zero_of_nolt (ps : List Char) (a : List Char) (ha : '<' ∉ a) :
    countOcc ('<' :: ps) a = 0 := by
  have := countOcc_append_nolt ps [] a ha
  simpa [countOcc] using this

theorem countOcc_flatten_append (ps : List Char) (hlen : ps.length ≤ 3) (rest : List Char) :
    ∀ pieces : List (List Char), (∀ p ∈ pieces, '<' ∉ p.drop (p.length - 3)) →
      countOcc ('<' :: ps) (pieces.flatten ++ rest) =
        (pieces.map (countOcc ('<' :: ps))).sum + countOcc ('<' :: ps) rest := by
  intro pieces
  induction pieces with
  | nil => intro _; simp
  | cons p pieces' ih =>
    intro hcl
    have h1 : countOcc ('<' :: ps) (p ++ (pieces'.flatten ++ rest)) =
        countOcc ('<' :: ps) p + countOcc ('<' :: ps) (pieces'.flatten ++ rest) :=
      countOcc_append3 ps hlen (pieces'.flatten ++ rest) p (hcl p (by simp))
    have h2 := ih (fun q hq => hcl q (List.mem_cons_of_mem p hq))
    have e0 : (p :: pieces').flatten ++ rest = p ++ (pieces'.flatten ++ rest) := by
      simp [List.append_assoc]
    rw [e0, h1, h2]
    simp only [List.map_cons, List.sum_cons]
    omega

theorem countOcc_wrap (ps : List Char) (hlen : ps.length ≤ 3) (pre mid post : List Char)
    (hpre : '<' ∉ pre.drop (pre.length - 3)) (hmid : '<' ∉ mid) :
    countOcc ('<' :: ps) (pre ++ (mid ++ post)) =
      countOcc ('<' :: ps) pre + countOcc ('<' :: ps) post := by
  rw [countOcc_append3 ps hlen (mid ++ post) pre hpre, countOcc_append_nolt ps post mid hmid]

theorem drop_sub3_append (x y : List Char) (h : 3 ≤ y.length) :
    (x ++ y).drop ((x ++ y).length - 3) = y.drop (y.length - 3) := by
  rw [List.drop_append_eq_append_drop]
  have h1 : x.length ≤ (x ++ y).length - 3 := by simp [List.length_append]; omega
  rw [List.drop_eq_nil_of_le h1]
  have h2 : (x ++ y).length - 3 - x.length = y.length - 3 := by
    simp [List.length_append]; omega
  rw [h2, List.nil_append]

/-! ### Segment facts for the rendered table -/

theorem cleanTail_thCellChars (col : String) :
    '<' ∉ (thCellChars col).drop ((thCellChars col).length - 3) := by
  unfold thCellChars
  rw [← List.append_assoc, drop_sub3_append _ _ (by decide)]
  decide

theorem cleanTail_tdCellChars (c : Option String) :
    '<' ∉ (tdCellChars c).drop ((tdCellChars c).length - 3) := by
  unfold tdCellChars
  rw [← List.append_assoc, drop_sub3_append _ _ (by decide)]
  decide

theorem cleanTail_rowChars (cols : List String) (row : List (Option String)) :
    '<' ∉ (rowChars cols row).drop ((rowChars cols row).length - 3) := by
  unfold rowChars
  rw [← List.append_assoc, drop_sub3_append _ _ (by decide)]
  decide

theorem countOcc_thCellChars (ps : List Char) (hlen : ps.length ≤ 3) (col : String)
    (h : '<' ∉ col.data) :
    countOcc ('<' :: ps) (thCellChars col) =
      countOcc ('<' :: ps) thOpenChars + countOcc ('<' :: ps) "</th>".data := by
  unfold thCellChars
  exact countOcc_wrap ps hlen thOpenChars col.data "</th>".data (by decide) h

theorem countOcc_tdCellChars (ps : List Char) (hlen : ps.length ≤ 3) (c : Option String)
    (h : '<' ∉ (renderCell c).data) :
    countOcc ('<' :: ps) (tdCellChars c) =
      countOcc ('<' :: ps) tdOpenChars + countOcc ('<' :: ps) "</td>".data := by
  unfold tdCellChars
  exact countOcc_wrap ps hlen tdOpenChars (renderCell c).data "</td>".data (by decide) h

theorem countOcc_rowChars (ps : List Char) (hlen : ps.length ≤ 3)
    (cols : List String) (row : List (Option String)) :
    countOcc ('<' :: ps) (rowChars cols row) =
      countOcc ('<' :: ps) "<tr>".data +
        (((cellSegs cols row).map (countOcc ('<' :: ps))).sum +
          countOcc ('<' :: ps) "</tr>".data) := by
  unfold rowChars
  have hcl : ∀ p ∈ cellSegs cols row, '<' ∉ p.drop (p.length - 3) := by
    intro p hp
    rcases List.mem_map.mp hp with ⟨cv, _, rfl⟩
    exact cleanTail_tdCellChars cv.2
  rw [countOcc_append3 ps hlen _ "<tr>".data (by decide),
    countOcc_flatten_append ps hlen "</tr>".data (cellSegs cols row) hcl]

theorem countOcc_htmlChars (ps : List Char) (hlen : ps.length ≤ 3) (df : DataFrame) :
    countOcc ('<' :: ps) (htmlChars df) =
      countOcc ('<' :: ps) tableOpen.data +
        (((df.columns.map thCellChars).map (countOcc ('<' :: ps))).sum +
          (countOcc ('<' :: ps) "</tr>".data +
            (((df.rows.map (rowChars df.columns)).map (countOcc ('<' :: ps))).sum +
              countOcc ('<' :: ps) "</table>".data))) := by
  unfold htmlChars
  have hclH : ∀ p ∈ df.columns.map thCellChars, '<' ∉ p.drop (p.length - 3) := by
    intro p hp
    rcases List.mem_map.mp hp with ⟨col, _, rfl⟩
    exact cleanTail_thCellChars col
  have hclB : ∀ p ∈ df.rows.map (rowChars df.columns), '<' ∉ p.drop (p.length - 3) := by
    intro p hp
    rcases List.mem_map.mp hp with ⟨row, _, rfl⟩
    exact cleanTail_rowChars df.columns row
  rw [countOcc_append3 ps hlen _ tableOpen.data (by decide),
    countOcc_flatten_append ps hlen _ (df.columns.map thCellChars) hclH,
    countOcc_append3 ps hlen _ "</tr>".data (by decide),
    countOcc_flatten_append ps hlen _ (df.rows.map (rowChars df.columns)) hclB]

theorem sum_map_const_nat {α : Type} (l : List α) (f : α → Nat) (c : Nat)
    (h : ∀ x ∈ l, f x = c) : (l.map f).sum = l.length * c := by
  induction l with
  | nil => simp
  | cons x l ih =>
    simp only [List.map_cons, List.sum_cons, List.length_cons]
    rw [h x (by simp), ih (fun y hy => h y (by simp [hy])), Nat.succ_mul]
    omega

/-! ### Ordered occurrence of segments -/

theorem appearsInOrder_prepend (as : List (List Char)) (x y : List Char)
    (h : appearsInOrder as y) : appearsInOrder as (x ++ y) := by
  cases as with
  | nil => trivial
  | cons p ps =>
    obtain ⟨u, v, hy, hrest⟩ := h
    exact ⟨x ++ u, v, by rw [hy]; simp [List.append_assoc], hrest⟩

theorem appearsInOrder_extend (as : List (List Char)) :
    ∀ x y : List Char, appearsInOrder as x → appearsInOrder as (x ++ y) := by
  induction as with
  | nil => intro x y _; trivial
  | cons p ps ih =>
    intro x y h
    obtain ⟨u, v, hx, hrest⟩ := h
    exact ⟨u, v ++ y, by rw [hx]; simp [List.append_assoc], ih v y hrest⟩

theorem appearsInOrder_append (as bs : List (List Char)) :
    ∀ x y : List Char, appearsInOrder as x → appearsInOrder bs y →
      appearsInOrder (as ++ bs) (x ++ y) := by
  induction as with
  | nil => intro x y _ hb; exact appearsInOrder_prepend bs x y hb
  | cons p ps ih =>
    intro x y ha hb
    obtain ⟨u, v, hx, hrest⟩ := ha
    exact ⟨u, v ++ y, by rw [hx]; simp [List.append_assoc], ih v y hrest hb⟩

theorem appearsInOrder_self (pieces : List (List Char)) :
    appearsInOrder pieces pieces.flatten := by
  induction pieces with
  | nil => trivial
  | cons p ps ih => exact ⟨[], ps.flatten, by simp, ih⟩

theorem appearsInOrder_body (cols : List String) :
    ∀ rows : List (List (Option String)),
      appearsInOrder ((rows.map (cellSegs cols)).flatten)
        ((rows.map (rowChars cols)).flatten) := by
  intro rows
  induction rows with
  | nil => trivial
  | cons r rows ih =>
    simp only [List.map_cons, List.flatten_cons]
    refine appearsInOrder_append _ _ _ _ ?_ ih
    unfold rowChars
    refine appearsInOrder_prepend _ _ _ ?_
    exact appearsInOrder_extend _ _ _ (appearsInOrder_self _)

theorem appearsInOrder_htmlChars (df : DataFrame) :
    appearsInOrder (headerSegs df ++ bodySegs df) (htmlChars df) := by
  unfold htmlChars bodySegs
  refine appearsInOrder_prepend _ _ _ ?_
  refine appearsInOrder_append _ _ _ _ ?_ ?_
  · exact appearsInOrder_self _
  · refine appearsInOrder_prepend _ _ _ ?_
    refine appearsInOrder_extend _ _ _ ?_
    exact appearsInOrder_body df.columns df.rows

/-- C4: for every dataset with N columns and M rows (each row holding one
cell per column), the HTML produced by `build_html_table` contains exactly
one `<th` header-cell opening per column, exactly M body-row openings
`<tr>` (the header row is opened by `<tr style=`, not `<tr>`), and exactly
M·N body-cell openings `<td`; moreover the header-cell segments appear in
the dataset's original column order, followed row by row by each row's
body-cell segments in the same source column order.  Tag counting assumes
the cell texts themselves contain no `<` (`CleanDf`); the order conjunct
needs no such assumption. -/
theorem build_html_table_structure (df : DataFrame) (hwf : RowsWf df) (hcl : CleanDf df) :
    countOcc thPat (build_html_table df).data = df.columns.length ∧
    countOcc trPat (build_html_table df).data = df.rows.length ∧
    countOcc tdPat (build_html_table df).data = df.rows.length * df.columns.length ∧
    appearsInOrder (headerSegs df ++ bodySegs df) (build_html_table df).data := by
  obtain ⟨hcols, hcells⟩ := hcl
  rw [build_html_table_data df]
  have hzip : ∀ row ∈ df.rows, (df.columns.zip row).length = df.columns.length := by
    intro row hr
    rw [List.length_zip, hwf row hr]
    exact Nat.min_self _
  have hcellmem : ∀ row ∈ df.rows, ∀ cv ∈ df.columns.zip row, '<' ∉ (renderCell cv.2).data := by
    intro row hr cv hcv
    exact hcells row hr cv.2 (List.of_mem_zip hcv).2
  refine ⟨?_, ?_, ?_, ?_⟩
  · -- one <th per column
    show countOcc ('<' :: ('t' :: 'h' :: [])) (htmlChars df) = df.columns.length
    have th1 : ∀ col ∈ df.columns,
        countOcc ('<' :: ('t' :: 'h' :: [])) (thCellChars col) = 1 := by
      intro col hc
      rw [countOcc_thCellChars _ (by decide) col (hcols col hc)]
      decide
    have th2 : ∀ row ∈ df.rows,
        countOcc ('<' :: ('t' :: 'h' :: [])) (rowChars df.columns row) = 0 := by
      intro row hr
      rw [countOcc_rowChars _ (by decide) df.columns row]
      have hc0 : ∀ p ∈ cellSegs df.columns row,
          countOcc ('<' :: ('t' :: 'h' :: [])) p = 0 := by
        intro p hp
        unfold cellSegs at hp
        rcases List.mem_map.mp hp with ⟨cv, hcv, rfl⟩
        rw [countOcc_tdCellChars _ (by decide) cv.2 (hcellmem row hr cv hcv)]
        decide
      rw [sum_map_const_nat (cellSegs df.columns row) _ 0 hc0]
      have d1 : countOcc ('<' :: ('t' :: 'h' :: [])) "<tr>".data = 0 := by decide
      have d2 : countOcc ('<' :: ('t' :: 'h' :: [])) "</tr>".data = 0 := by decide
      rw [d1, d2]
      omega
    rw [countOcc_htmlChars _ (by decide) df, List.map_map, List.map_map,
      sum_map_const_nat df.columns (countOcc ('<' :: ('t' :: 'h' :: [])) ∘ thCellChars) 1 th1,
      sum_map_const_nat df.rows (countOcc ('<' :: ('t' :: 'h' :: [])) ∘ rowChars df.columns) 0 th2]
    have d1 : countOcc ('<' :: ('t' :: 'h' :: [])) tableOpen.data = 0 := by decide
    have d2 : countOcc ('<' :: ('t' :: 'h' :: [])) "</tr>".data = 0 := by decide
    have d3 : countOcc ('<' :: ('t' :: 'h' :: [])) "</table>".data = 0 := by decide
    rw [d1, d2, d3]
    omega
  · -- one <tr> per body row
    show countOcc ('<' :: ('t' :: 'r' :: '>' :: [])) (htmlChars df) = df.rows.length
    have tr1 : ∀ col ∈ df.columns,
        countOcc ('<' :: ('t' :: 'r' :: '>' :: [])) (thCellChars col) = 0 := by
      intro col hc
      rw [countOcc_thCellChars _ (by decide) col (hcols col hc)]
      decide
    have tr2 : ∀ row ∈ df.rows,
        countOcc ('<' :: ('t' :: 'r' :: '>' :: [])) (rowChars df.columns row) = 1 := by
      intro row hr
      rw [countOcc_rowChars _ (by decide) df.columns row]
      have hc0 : ∀ p ∈ cellSegs df.columns row,
          countOcc ('<' :: ('t' :: 'r' :: '>' :: [])) p = 0 := by
        intro p hp
        unfold cellSegs at hp
        rcases List.mem_map.mp hp with ⟨cv, hcv, rfl⟩
        rw [countOcc_tdCellChars _ (by decide) cv.2 (hcellmem row hr cv hcv)]
        decide
      rw [sum_map_const_nat (cellSegs df.columns row) _ 0 hc0]
      have d1 : countOcc ('<' :: ('t' :: 'r' :: '>' :: [])) "<tr>".data = 1 := by decide
      have d2 : countOcc ('<' :: ('t' :: 'r' :: '>' :: [])) "</tr>".data = 0 := by decide
      rw [d1, d2]
      omega
    rw [countOcc_htmlChars _ (by decide) df, List.map_map, List.map_map,
      sum_map_const_nat df.columns (countOcc ('<' :: ('t' :: 'r' :: '>' :: [])) ∘ thCellChars) 0 tr1,
      sum_map_const_nat df.rows (countOcc ('<' :: ('t' :: 'r' :: '>' :: [])) ∘ rowChars df.columns) 1 tr2]
    have d1 : countOcc ('<' :: ('t' :: 'r' :: '>' :: [])) tableOpen.data = 0 := by decide
    have d2 : countOcc ('<' :: ('t' :: 'r' :: '>' :: [])) "</tr>".data = 0 := by decide
    have d3 : countOcc ('<' :: ('t' :: 'r' :: '>' :: [])) "</table>".data = 0 := by decide
    rw [d1, d2, d3]
    omega
  · -- N <td per body row
    show countOcc ('<' :: ('t' :: 'd' :: [])) (htmlChars df)
      = df.rows.length * df.columns.length
    have td1 : ∀ col ∈ df.columns,
        countOcc ('<' :: ('t' :: 'd' :: [])) (thCellChars col) = 0 := by
      intro col hc
      rw [countOcc_thCellChars _ (by decide) col (hcols col hc)]
      decide
    have td2 : ∀ row ∈ df.rows,
        countOcc ('<' :: ('t' :: 'd' :: [])) (rowChars df.columns row)
          = df.columns.length := by
      intro row hr
      rw [countOcc_rowChars _ (by decide) df.columns row]
      have hc1 : ∀ p ∈ cellSegs df.columns row,
          countOcc ('<' :: ('t' :: 'd' :: [])) p = 1 := by
        intro p hp
        unfold cellSegs at hp
        rcases List.mem_map.mp hp with ⟨cv, hcv, rfl⟩
        rw [countOcc_tdCellChars _ (by decide) cv.2 (hcellmem row hr cv hcv)]
        decide
      rw [sum_map_const_nat (cellSegs df.columns row) _ 1 hc1]
      have hlen : (cellSegs df.columns row).length = df.columns.length := by
        unfold cellSegs
        rw [List.length_map]
        exact hzip row hr
      rw [hlen]
      have d1 : countOcc ('<' :: ('t' :: 'd' :: [])) "<tr>".data = 0 := by decide
      have d2 : countOcc ('<' :: ('t' :: 'd' :: [])) "</tr>".data = 0 := by decide
      rw [d1, d2]
      omega
    rw [countOcc_htmlChars _ (by decide) df, List.map_map, List.map_map,
      sum_map_const_nat df.columns (countOcc ('<' :: ('t' :: 'd' :: [])) ∘ thCellChars) 0 td1,
      sum_map_const_nat df.rows (countOcc ('<' :: ('t' :: 'd' :: [])) ∘ rowChars df.columns) df.columns.length td2]
    have d1 : countOcc ('<' :: ('t' :: 'd' :: [])) tableOpen.data = 0 := by decide
    have d2 : countOcc ('<' :: ('t' :: 'd' :: [])) "</tr>".data = 0 := by decide
    have d3 : countOcc ('<' :: ('t' :: 'd' :: [])) "</table>".data = 0 := by decide
    rw [d1, d2, d3]
    omega
  · -- all cell segments appear in source order
    exact appearsInOrder_htmlChars df

theorem build_html_table_structure_witness :
    RowsWf ⟨["Col A", "Col B"], [[some "1", none], [some "x", some "y"]]⟩ ∧
    CleanDf ⟨["Col A", "Col B"], [[some "1", none], [some "x", some "y"]]⟩ ∧
    (countOcc thPat
        (build_html_table ⟨["Col A", "Col B"], [[some "1", none], [some "x", some "y"]]⟩).data = 2 ∧
      countOcc trPat
        (build_html_table ⟨["Col A", "Col B"], [[some "1", none], [some "x", some "y"]]⟩).data = 2 ∧
      countOcc tdPat
        (build_html_table ⟨["Col A", "Col B"], [[some "1", none], [some "x", some "y"]]⟩).data = 2 * 2 ∧
      appearsInOrder
        (headerSegs ⟨["Col A", "Col B"], [[some "1", none], [some "x", some "y"]]⟩ ++
          bodySegs ⟨["Col A", "Col B"], [[some "1", none], [some "x", some "y"]]⟩)
        (build_html_table ⟨["Col A", "Col B"], [[some "1", none], [some "x", some "y"]]⟩).data) :=
  ⟨by unfold RowsWf; decide, by unfold CleanDf; decide,
    build_html_table_structure _ (by unfold RowsWf; decide) (by unfold CleanDf; decide)⟩

/-! ### Missing-value normalization and verbatim interpolation -/

theorem string_eq_of_data (s t : String) (h : s.data = t.data) : s = t := by
  cases s; cases t; cases h; rfl

theorem tdCellChars_norm (c : Option String) :
    tdCellChars (some (renderCell c)) = tdCellChars c := by
  cases c <;> rfl

theorem rowChars_norm (cols : List String) (row : List (Option String)) :
    rowChars cols (row.map (fun c => some (renderCell c))) = rowChars cols row := by
  unfold rowChars cellSegs
  rw [List.zip_map_right, List.map_map]
  have : ∀ cv ∈ cols.zip row,
      ((fun cv : String × Option String => tdCellChars cv.2) ∘ Prod.map id (fun c => some (renderCell c))) cv
        = tdCellChars cv.2 := by
    intro cv _
    exact tdCellChars_norm cv.2
  rw [List.map_congr_left this]

/-- C5: a missing cell is rendered with empty content between the `<td>`
tags: normalising every missing cell to an explicitly-present empty string
changes nothing in the output of `build_html_table`, and on the dataset
`{"A": [null]}` the output is exactly the table whose single body cell is
`<td style=...></td>`, containing no occurrence of the placeholder texts
`null`, `NaN` or `None`. -/
theorem build_html_table_missing_renders_empty :
    (∀ df : DataFrame, build_html_table (normalizeDf df) = build_html_table df) ∧
    build_html_table ⟨["A"], [[none]]⟩ =
      tableOpen ++ "<th style=\x27padding: 5px; white-space: nowrap;\x27>A</th></tr><tr><td style=\x27padding: 5px; word-wrap: break-word;\x27></td></tr></table>" ∧
    countOcc ['n', 'u', 'l', 'l'] (build_html_table ⟨["A"], [[none]]⟩).data = 0 ∧
    countOcc ['N', 'a', 'N'] (build_html_table ⟨["A"], [[none]]⟩).data = 0 ∧
    countOcc ['N', 'o', 'n', 'e'] (build_html_table ⟨["A"], [[none]]⟩).data = 0 := by
  refine ⟨?_, by decide, by decide, by decide, by decide⟩
  intro df
  apply string_eq_of_data
  rw [build_html_table_data, build_html_table_data]
  unfold htmlChars
  have hcols : (normalizeDf df).columns = df.columns := rfl
  have hrows : (normalizeDf df).rows.map (rowChars df.columns)
      = df.rows.map (rowChars df.columns) := by
    show (df.rows.map (List.map (fun c => some (renderCell c)))).map (rowChars df.columns)
      = df.rows.map (rowChars df.columns)
    rw [List.map_map]
    refine List.map_congr_left ?_
    intro row _
    exact rowChars_norm df.columns row
  rw [hcols, hrows]

theorem containsSeg_append_left (p x y : List Char) (h : containsSeg p y) :
    containsSeg p (x ++ y) := by
  obtain ⟨u, v, rfl⟩ := h
  exact ⟨x ++ u, v, by simp [List.append_assoc]⟩

theorem containsSeg_trans (a b c : List Char) (h1 : containsSeg a b) (h2 : containsSeg b c) :
    containsSeg a c := by
  obtain ⟨x, y, rfl⟩ := h1
  obtain ⟨u, v, rfl⟩ := h2
  exact ⟨u ++ x, y ++ v, by simp [List.append_assoc]⟩

theorem appearsInOrder_containsSeg (subs : List (List Char)) (q : List Char) (hq : q ∈ subs) :
    ∀ s : List Char, appearsInOrder subs s → containsSeg q s := by
  induction subs with
  | nil => simp at hq
  | cons p ps ih =>
    intro s h
    obtain ⟨x, y, rfl, hrest⟩ := h
    rcases List.mem_cons.mp hq with rfl | hq'
    · exact ⟨x, y, by simp [List.append_assoc]⟩
    · exact containsSeg_append_left q (x ++ p) y (ih hq' y hrest)

/-- C7: `build_html_table` performs no escaping: every column name and
every rendered cell value (including ones containing `<`, `>`, `&`)
appears verbatim, as a contiguous character run, in the produced HTML,
both for header cells and body cells. -/
theorem build_html_table_no_escaping (df : DataFrame) (hwf : RowsWf df) :
    (∀ col ∈ df.columns, containsSeg col.data (build_html_table df).data) ∧
    (∀ row ∈ df.rows, ∀ c ∈ row, containsSeg (renderCell c).data (build_html_table df).data) := by
  rw [build_html_table_data df]
  have horder := appearsInOrder_htmlChars df
  constructor
  · intro col hc
    have hmem : thCellChars col ∈ headerSegs df ++ bodySegs df := by
      apply List.mem_append_left
      exact List.mem_map.mpr ⟨col, hc, rfl⟩
    refine containsSeg_trans _ _ _ ?_ (appearsInOrder_containsSeg _ _ hmem _ horder)
    exact ⟨thOpenChars, "</th>".data, rfl⟩
  · intro row hr c hcrow
    have hlen : row.length ≤ df.columns.length := le_of_eq (hwf row hr)
    have hsnd : (df.columns.zip row).map Prod.snd = row := List.map_snd_zip df.columns row hlen
    have hmemz : c ∈ (df.columns.zip row).map Prod.snd := by rw [hsnd]; exact hcrow
    rcases List.mem_map.mp hmemz with ⟨cv, hcv, hcd⟩
    have hmem : tdCellChars c ∈ headerSegs df ++ bodySegs df := by
      apply List.mem_append_right
      apply List.mem_flatten.mpr
      refine ⟨cellSegs df.columns row, ?_, ?_⟩
      · exact List.mem_map.mpr ⟨row, hr, rfl⟩
      · exact List.mem_map.mpr ⟨cv, hcv, by rw [hcd]⟩
    refine containsSeg_trans _ _ _ ?_ (appearsInOrder_containsSeg _ _ hmem _ horder)
    exact ⟨tdOpenChars, "</td>".data, rfl⟩

theorem build_html_table_no_escaping_witness :
    RowsWf ⟨["a<&>b"], [[some "x<&>y"]]⟩ ∧
    containsSeg "a<&>b".data (build_html_table ⟨["a<&>b"], [[some "x<&>y"]]⟩).data ∧
    containsSeg "x<&>y".data (build_html_table ⟨["a<&>b"], [[some "x<&>y"]]⟩).data :=
  ⟨by unfold RowsWf; decide,
    (build_html_table_no_escaping _ (by unfold RowsWf; decide)).1 "a<&>b" (by decide),
    (build_html_table_no_escaping _ (by unfold RowsWf; decide)).2
      [some "x<&>y"] (by decide) (some "x<&>y") (by decide)⟩

/-! ### SMTP session characterization -/

theorem smtpTry_sendmail_mem (w : World) (s p : String) (r : List String) (m : Message)
    (f : String) (r' : List String) (m' : Message)
    (h : Event.sendmail f r' m' ∈ (smtpTry w s p r m).1) : f = s ∧ r' = r ∧ m' = m := by
  obtain ⟨rf, cr, str, lr, sr, qr⟩ := w
  unfold smtpTry at h
  rcases cr with e1 | ⟨⟩ <;> rcases str with e2 | ⟨⟩ <;> rcases lr with e3 | ⟨⟩ <;>
    rcases sr with e4 | ⟨⟩ <;> rcases qr with e5 | ⟨⟩ <;> simp_all

theorem smtpTry_err (w : World) (s p : String) (r : List String) (m : Message) :
    (smtpTry w s p r m).2 = firstSmtpError w := by
  obtain ⟨rf, cr, str, lr, sr, qr⟩ := w
  unfold smtpTry firstSmtpError
  rcases cr with e1 | ⟨⟩ <;> rcases str with e2 | ⟨⟩ <;> rcases lr with e3 | ⟨⟩ <;>
    rcases sr with e4 | ⟨⟩ <;> rcases qr with e5 | ⟨⟩ <;> rfl

theorem smtpTry_quit_mem (w : World) (s p : String) (r : List String) (m : Message) :
    Event.quit ∈ (smtpTry w s p r m).1 ↔
      (w.connectRes = .ok () ∧ w.starttlsRes = .ok () ∧
        w.loginRes = .ok () ∧ w.sendRes = .ok ()) := by
  obtain ⟨rf, cr, str, lr, sr, qr⟩ := w
  unfold smtpTry
  rcases cr with e1 | ⟨⟩ <;> rcases str with e2 | ⟨⟩ <;> rcases lr with e3 | ⟨⟩ <;>
    rcases sr with e4 | ⟨⟩ <;> rcases qr with e5 | ⟨⟩ <;> simp_all

theorem smtpTry_mem_shape (w : World) (s p : String) (r : List String) (m : Message)
    (ev : Event) (h : ev ∈ (smtpTry w s p r m).1) :
    ev = Event.print ("📤 Connecting to SMTP server " ++ smtp_server ++ ":"
        ++ toString smtp_port ++ "...") ∨
    ev = Event.smtpConnect smtp_server smtp_port ∨
    ev = Event.starttls ∨
    ev = Event.print "🔐 TLS connection established." ∨
    ev = Event.login s p ∨
    ev = Event.print "🔑 Logged in to SMTP server." ∨
    ev = Event.sendmail s r m ∨
    ev = Event.quit ∨
    ev = Event.print ("✅ Email sent to: " ++ commaJoin r) := by
  obtain ⟨rf, cr, str, lr, sr, qr⟩ := w
  unfold smtpTry at h
  rcases cr with e1 | ⟨⟩ <;> rcases str with e2 | ⟨⟩ <;> rcases lr with e3 | ⟨⟩ <;>
    rcases sr with e4 | ⟨⟩ <;> rcases qr with e5 | ⟨⟩ <;> simp_all <;> tauto

theorem attachStep_error_shape (w : World) (ap : Option String) (evs : List Event)
    (h : attachStep w ap = .error evs) :
    ∃ e, evs = [Event.fileOpen (ap.getD ""),
      Event.print ("❌ Failed to attach file: " ++ e)] := by
  unfold attachStep at h
  cases hpt : pyTruthy ap with
  | false => rw [hpt] at h; simp at h
  | true =>
    rw [hpt] at h
    simp only [if_true] at h
    rcases hr : w.readFile (ap.getD "") with e | bytes <;> rw [hr] at h <;> simp at h
    exact ⟨e, h.symm⟩

theorem attachStep_ok_shape (w : World) (ap : Option String) (evs : List Event)
    (part? : Option MimePart) (h : attachStep w ap = .ok (evs, part?)) :
    evs = [] ∨ ∃ path, evs = [Event.fileOpen path,
      Event.print ("📎 Attached file: " ++ path)] := by
  unfold attachStep at h
  cases hpt : pyTruthy ap with
  | false => rw [hpt] at h; simp at h; left; exact h.1
  | true =>
    rw [hpt] at h
    simp only [if_true] at h
    rcases hr : w.readFile (ap.getD "") with e | bytes <;> rw [hr] at h <;> simp at h
    right; exact ⟨ap.getD "", h.1.symm⟩

theorem send_email_unfold_ok (w : World) (s p : String)
    (to_emails cc_emails : List String) (subject html_content : String)
    (ap : Option String) (evs : List Event) (part? : Option MimePart)
    (hA : attachStep w ap = .ok (evs, part?)) :
    send_email w s p to_emails cc_emails subject html_content ap =
      (match smtpTry w s p (to_emails ++ cc_emails)
          (attachParts (mkMessage s to_emails cc_emails subject html_content) part?) with
        | (sevs, none) => evs ++ sevs
        | (sevs, some e) => evs ++ sevs ++
            [Event.print ("❌ Failed to send email to "
              ++ pyListRepr (to_emails ++ cc_emails) ++ ": " ++ e)]) := by
  unfold send_email
  rw [hA]

theorem send_email_sendmail_mem_ok (w : World) (s p : String)
    (to_emails cc_emails : List String) (subject html_content : String)
    (ap : Option String) (evs : List Event) (part? : Option MimePart)
    (hA : attachStep w ap = .ok (evs, part?)) (f : String) (r : List String) (m : Message)
    (h : Event.sendmail f r m ∈ send_email w s p to_emails cc_emails subject html_content ap) :
    f = s ∧ r = to_emails ++ cc_emails ∧
      m = attachParts (mkMessage s to_emails cc_emails subject html_content) part? := by
  rw [send_email_unfold_ok w s p to_emails cc_emails subject html_content ap evs part? hA] at h
  rcases hS : smtpTry w s p (to_emails ++ cc_emails)
      (attachParts (mkMessage s to_emails cc_emails subject html_content) part?)
    with ⟨sevs, err?⟩
  rw [hS] at h
  have hevs : Event.sendmail f r m ∉ evs := by
    rcases attachStep_ok_shape w ap evs part? hA with rfl | ⟨path, rfl⟩ <;> simp
  have hsm : Event.sendmail f r m ∈ sevs →
      f = s ∧ r = to_emails ++ cc_emails ∧
        m = attachParts (mkMessage s to_emails cc_emails subject html_content) part? := by
    intro hmem
    exact smtpTry_sendmail_mem w s p (to_emails ++ cc_emails) _ f r m (by rw [hS]; exact hmem)
  apply hsm
  rcases err? with _ | e
  · simp only [List.mem_append] at h
    rcases h with h | h
    · exact absurd h hevs
    · exact h
  · simp only [List.mem_append, List.mem_singleton] at h
    rcases h with (h | h) | h
    · exact absurd h hevs
    · exact h
    · simp at h

theorem send_email_sendmail_mem (w : World) (s p : String)
    (to_emails cc_emails : List String) (subject html_content : String)
    (ap : Option String) (f : String) (r : List String) (m : Message)
    (h : Event.sendmail f r m ∈ send_email w s p to_emails cc_emails subject html_content ap) :
    f = s ∧ r = to_emails ++ cc_emails := by
  rcases hA : attachStep w ap with evs | ⟨evs, part?⟩
  · unfold send_email at h
    rw [hA] at h
    obtain ⟨e, rfl⟩ := attachStep_error_shape w ap evs hA
    simp at h
  · have := send_email_sendmail_mem_ok w s p to_emails cc_emails subject html_content
      ap evs part? hA f r m h
    exact ⟨this.1, this.2.1⟩

/-- C1: every envelope recipient list handed to the SMTP transmission
(`server.sendmail(sender, all_recipients, ...)`) equals, as a set, the
union of the to-list and the cc-list; the To/Cc header strings stored in
the message play no role in the envelope. -/
theorem send_email_envelope_eq_union (w : World) (s p : String)
    (to_emails cc_emails : List String) (subject html_content : String)
    (ap : Option String) (f : String) (r : List String) (m : Message)
    (h : Event.sendmail f r m ∈ send_email w s p to_emails cc_emails subject html_content ap) :
    r.toFinset = to_emails.toFinset ∪ cc_emails.toFinset := by
  have hr := (send_email_sendmail_mem w s p to_emails cc_emails subject html_content ap f r m h).2
  rw [hr, List.toFinset_append]

theorem send_email_envelope_eq_union_witness :
    (Event.sendmail "s" ["a@x.com", "b@x.com"]
        (mkMessage "s" ["a@x.com"] ["b@x.com"] "subj" "<p>hi</p>") ∈
      send_email allOkWorld "s" "p" ["a@x.com"] ["b@x.com"] "subj" "<p>hi</p>" none) ∧
    (["a@x.com", "b@x.com"] : List String).toFinset =
      (["a@x.com"] : List String).toFinset ∪ (["b@x.com"] : List String).toFinset :=
  ⟨by decide,
    send_email_envelope_eq_union allOkWorld "s" "p" ["a@x.com"] ["b@x.com"]
      "subj" "<p>hi</p>" none "s" ["a@x.com", "b@x.com"]
      (mkMessage "s" ["a@x.com"] ["b@x.com"] "subj" "<p>hi</p>") (by decide)⟩

/-- C9: the envelope recipient list is the plain concatenation
`to_emails + cc_emails` with no deduplication, so an address appearing in
both lists is passed twice; the witness instantiates this at the statically
configured identical single-address To and CC lists. -/
theorem send_email_envelope_concat_no_dedup (w : World) (s p : String)
    (to_emails cc_emails : List String) (subject html_content : String)
    (ap : Option String) (f : String) (r : List String) (m : Message)
    (h : Event.sendmail f r m ∈ send_email w s p to_emails cc_emails subject html_content ap) :
    r = to_emails ++ cc_emails ∧
      ∀ a : String, r.count a = to_emails.count a + cc_emails.count a := by
  have hr := (send_email_sendmail_mem w s p to_emails cc_emails subject html_content ap f r m h).2
  refine ⟨hr, ?_⟩
  intro a
  rw [hr, List.count_append]

theorem send_email_envelope_concat_no_dedup_witness :
    (Event.sendmail "s" (recipients ++ cc_list)
        (mkMessage "s" recipients cc_list "subj" "<p>hi</p>") ∈
      send_email allOkWorld "s" "p" recipients cc_list "subj" "<p>hi</p>" none) ∧
    (recipients ++ cc_list).count "t_enaganti.kkumar@tatadigital.com" = 2 := by
  have h : Event.sendmail "s" (recipients ++ cc_list)
      (mkMessage "s" recipients cc_list "subj" "<p>hi</p>") ∈
      send_email allOkWorld "s" "p" recipients cc_list "subj" "<p>hi</p>" none := by decide
  refine ⟨h, ?_⟩
  have hc := (send_email_envelope_concat_no_dedup allOkWorld "s" "p" recipients cc_list
    "subj" "<p>hi</p>" none "s" (recipients ++ cc_list)
    (mkMessage "s" recipients cc_list "subj" "<p>hi</p>") h).2 "t_enaganti.kkumar@tatadigital.com"
  rw [hc]
  decide

/-- C2 counterexample: in a world where the SMTP connection succeeds but
`login` raises, `send_email` handles the failure (its last event is the
failure print) and returns, yet no `quit` is ever issued — the opened SMTP
session is left unclosed, contradicting the claim that the session is
released on the handled-failure path as well. -/
theorem smtp_session_left_open_cex :
    loginFailWorld.connectRes = Except.ok () ∧
    Event.smtpConnect smtp_server smtp_port ∈
      send_email loginFailWorld "s" "p" ["a@x.com"] ["b@x.com"] "subj" "<p>hi</p>" none ∧
    Event.quit ∉
      send_email loginFailWorld "s" "p" ["a@x.com"] ["b@x.com"] "subj" "<p>hi</p>" none ∧
    (send_email loginFailWorld "s" "p" ["a@x.com"] ["b@x.com"] "subj" "<p>hi</p>" none).getLast?
      = some (Event.print ("❌ Failed to send email to [\x27a@x.com\x27, \x27b@x.com\x27]: "
          ++ "535 authentication failed")) :=
  ⟨rfl, by decide, by decide, by decide⟩

/-- C2 amended: `quit` is issued if and only if every earlier SMTP-session
step (connect, STARTTLS, login, transmission) succeeded; on a handled
failure of any of those steps the function returns without releasing the
session.  (On the attachment-failure path no session is ever opened.) -/
theorem send_email_quit_iff_steps_ok (w : World) (s p : String)
    (to_emails cc_emails : List String) (subject html_content : String)
    (ap : Option String) (evs : List Event) (part? : Option MimePart)
    (hA : attachStep w ap = .ok (evs, part?)) :
    Event.quit ∈ send_email w s p to_emails cc_emails subject html_content ap ↔
      (w.connectRes = .ok () ∧ w.starttlsRes = .ok () ∧
        w.loginRes = .ok () ∧ w.sendRes = .ok ()) := by
  rw [send_email_unfold_ok w s p to_emails cc_emails subject html_content ap evs part? hA]
  rcases hS : smtpTry w s p (to_emails ++ cc_emails)
      (attachParts (mkMessage s to_emails cc_emails subject html_content) part?)
    with ⟨sevs, err?⟩
  have hq := smtpTry_quit_mem w s p (to_emails ++ cc_emails)
    (attachParts (mkMessage s to_emails cc_emails subject html_content) part?)
  rw [hS] at hq
  have hevs : Event.quit ∉ evs := by
    rcases attachStep_ok_shape w ap evs part? hA with rfl | ⟨path, rfl⟩ <;> simp
  rcases err? with _ | e
  · simp only [List.mem_append]
    constructor
    · rintro (h | h)
      · exact absurd h hevs
      · exact hq.mp h
    · intro hok
      exact Or.inr (hq.mpr hok)
  · simp only [List.mem_append, List.mem_singleton]
    constructor
    · rintro ((h | h) | h)
      · exact absurd h hevs
      · exact hq.mp h
      · simp at h
    · intro hok
      exact Or.inl (Or.inr (hq.mpr hok))

theorem send_email_quit_iff_steps_ok_witness :
    attachStep allOkWorld none = Except.ok ([], none) ∧
    Event.quit ∈
      send_email allOkWorld "s" "p" ["a@x.com"] ["b@x.com"] "subj" "<p>hi</p>" none :=
  ⟨rfl,
    (send_email_quit_iff_steps_ok allOkWorld "s" "p" ["a@x.com"] ["b@x.com"]
      "subj" "<p>hi</p>" none [] none rfl).mpr ⟨rfl, rfl, rfl, rfl⟩⟩

/-- C3: when the attachment path is truthy and opening/reading the file
fails, `send_email` produces only the file-open attempt and the
attachment-failure log and returns: the trace contains no SMTP connect, no
login and no transmission — the send is aborted before any network
activity. -/
theorem send_email_attach_failure_aborts (w : World) (s p : String)
    (to_emails cc_emails : List String) (subject html_content : String)
    (ap : Option String) (e : String)
    (hT : pyTruthy ap = true) (hR : w.readFile (ap.getD "") = .error e) :
    send_email w s p to_emails cc_emails subject html_content ap =
      [Event.fileOpen (ap.getD ""), Event.print ("❌ Failed to attach file: " ++ e)] ∧
    (∀ host port, Event.smtpConnect host port ∉
      send_email w s p to_emails cc_emails subject html_content ap) ∧
    (∀ u pw, Event.login u pw ∉
      send_email w s p to_emails cc_emails subject html_content ap) ∧
    (∀ f r m, Event.sendmail f r m ∉
      send_email w s p to_emails cc_emails subject html_content ap) := by
  have hmain : send_email w s p to_emails cc_emails subject html_content ap =
      [Event.fileOpen (ap.getD ""), Event.print ("❌ Failed to attach file: " ++ e)] := by
    unfold send_email attachStep
    simp [hT, hR]
  refine ⟨hmain, ?_, ?_, ?_⟩
  · intro host port; rw [hmain]; simp
  · intro u pw; rw [hmain]; simp
  · intro f r m; rw [hmain]; simp

theorem send_email_attach_failure_aborts_witness :
    pyTruthy (some "missing.xlsx") = true ∧
    badAttachWorld.readFile ((some "missing.xlsx").getD "") =
      Except.error "No such file or directory" ∧
    send_email badAttachWorld "s" "p" ["a@x.com"] ["b@x.com"] "subj" "<p>hi</p>"
        (some "missing.xlsx") =
      [Event.fileOpen ((some "missing.xlsx").getD ""),
        Event.print ("❌ Failed to attach file: " ++ "No such file or directory")] :=
  ⟨rfl, rfl,
    (send_email_attach_failure_aborts badAttachWorld "s" "p" ["a@x.com"] ["b@x.com"]
      "subj" "<p>hi</p>" (some "missing.xlsx") "No such file or directory" rfl rfl).1⟩

theorem containsSeg_append_right (p x y : List Char) (h : containsSeg p x) :
    containsSeg p (x ++ y) := by
  obtain ⟨u, v, rfl⟩ := h
  exact ⟨u, v ++ y, by simp [List.append_assoc]⟩

theorem containsSeg_self (p : List Char) : containsSeg p p :=
  ⟨[], [], by simp⟩

theorem containsSeg_quoteItem (s : String) : containsSeg s.data (quoteItem s).data := by
  unfold quoteItem
  rw [String.data_append, String.data_append]
  exact ⟨"\x27".data, "\x27".data, by simp [List.append_assoc]⟩

theorem mem_containsSeg_commaJoin : ∀ (l : List String) (s : String), s ∈ l →
    containsSeg s.data (commaJoin l).data := by
  intro l
  induction l with
  | nil => intro s hs; simp at hs
  | cons a rest ih =>
    intro s hs
    cases rest with
    | nil =>
      have hsa : s = a := by simpa using hs
      subst hsa
      exact containsSeg_self _
    | cons b rest' =>
      have hcj : commaJoin (a :: b :: rest') = a ++ ", " ++ commaJoin (b :: rest') := rfl
      rw [hcj, String.data_append, String.data_append]
      rcases List.mem_cons.mp hs with rfl | hs'
      · exact ⟨[], ", ".data ++ (commaJoin (b :: rest')).data, by simp [List.append_assoc]⟩
      · exact containsSeg_append_left _ _ _ (ih s hs')

theorem mem_containsSeg_pyListRepr (l : List String) (s : String) (hs : s ∈ l) :
    containsSeg s.data (pyListRepr l).data := by
  unfold pyListRepr
  rw [String.data_append, String.data_append]
  have h1 : containsSeg (quoteItem s).data (commaJoin (l.map quoteItem)).data :=
    mem_containsSeg_commaJoin _ _ (List.mem_map.mpr ⟨s, hs, rfl⟩)
  have h2 : containsSeg s.data (commaJoin (l.map quoteItem)).data :=
    containsSeg_trans _ _ _ (containsSeg_quoteItem s) h1
  exact containsSeg_append_right _ _ _ (containsSeg_append_left _ _ _ h2)

/-- C6: whenever an SMTP-session step raises (its error being the first
failing step's), `send_email` catches it: the run ends — returning
normally — with the failure line printed, and that line names every
intended recipient (each recipient address occurs verbatim in it, via the
Python repr of `all_recipients`). -/
theorem send_email_smtp_failure_handled (w : World) (s p : String)
    (to_emails cc_emails : List String) (subject html_content : String)
    (ap : Option String) (e : String)
    (hA : pyTruthy ap = false ∨ ∃ bytes, w.readFile (ap.getD "") = .ok bytes)
    (hE : firstSmtpError w = some e) :
    (send_email w s p to_emails cc_emails subject html_content ap).getLast? =
      some (Event.print ("❌ Failed to send email to "
        ++ pyListRepr (to_emails ++ cc_emails) ++ ": " ++ e)) ∧
    ∀ rcp ∈ to_emails ++ cc_emails, containsSeg rcp.data
      ("❌ Failed to send email to "
        ++ pyListRepr (to_emails ++ cc_emails) ++ ": " ++ e).data := by
  have hok : ∃ evs part?, attachStep w ap = .ok (evs, part?) := by
    cases hpt : pyTruthy ap with
    | false => exact ⟨[], none, by unfold attachStep; simp [hpt]⟩
    | true =>
      rcases hA with hF | ⟨bytes, hR⟩
      · simp [hpt] at hF
      · exact ⟨[Event.fileOpen (ap.getD ""), Event.print ("📎 Attached file: " ++ ap.getD "")],
          some (MimePart.octetStream bytes (basename (ap.getD ""))),
          by unfold attachStep; simp [hpt, hR]⟩
  obtain ⟨evs, part?, hAok⟩ := hok
  constructor
  · rw [send_email_unfold_ok w s p to_emails cc_emails subject html_content ap evs part? hAok]
    rcases hS : smtpTry w s p (to_emails ++ cc_emails)
        (attachParts (mkMessage s to_emails cc_emails subject html_content) part?)
      with ⟨sevs, err?⟩
    have herr : err? = some e := by
      have h2 := smtpTry_err w s p (to_emails ++ cc_emails)
        (attachParts (mkMessage s to_emails cc_emails subject html_content) part?)
      rw [hS] at h2
      rw [hE] at h2
      exact h2
    subst herr
    have hred : (match (sevs, some e) with
        | (sevs, none) => evs ++ sevs
        | (sevs, some e') => evs ++ sevs ++
            [Event.print ("❌ Failed to send email to "
              ++ pyListRepr (to_emails ++ cc_emails) ++ ": " ++ e')]) =
        evs ++ sevs ++ [Event.print ("❌ Failed to send email to "
          ++ pyListRepr (to_emails ++ cc_emails) ++ ": " ++ e)] := rfl
    rw [hred]
    exact List.getLast?_concat _
  · intro rcp hrcp
    have h3 := mem_containsSeg_pyListRepr (to_emails ++ cc_emails) rcp hrcp
    rw [String.data_append, String.data_append, String.data_append]
    exact containsSeg_append_right _ _ _
      (containsSeg_append_right _ _ _ (containsSeg_append_left _ _ _ h3))

theorem send_email_smtp_failure_handled_witness :
    (pyTruthy (none : Option String) = false ∨
      ∃ bytes, loginFailWorld.readFile ((none : Option String).getD "") = .ok bytes) ∧
    firstSmtpError loginFailWorld = some "535 authentication failed" ∧
    (send_email loginFailWorld "s" "p" ["a@x.com"] ["b@x.com"] "subj" "<p>hi</p>" none).getLast?
      = some (Event.print ("❌ Failed to send email to "
          ++ pyListRepr (["a@x.com"] ++ ["b@x.com"]) ++ ": " ++ "535 authentication failed")) :=
  ⟨Or.inl rfl, rfl,
    (send_email_smtp_failure_handled loginFailWorld "s" "p" ["a@x.com"] ["b@x.com"]
      "subj" "<p>hi</p>" none "535 authentication failed" (Or.inl rfl) rfl).1⟩

/-- C8: when reading the spreadsheet fails, `main` catches the error, its
trace is exactly the start-up prints, the read attempt and the error log,
and it returns early: no SMTP connection, no transmission, no
attachment-file open — `send_email` is never invoked and no table is
built. -/
theorem main_read_failure_aborts (w : MainWorld) (s p e : String)
    (hE : w.readExcel input_file sheet_index = .error e) :
    script.main w s p = [Event.print "🔄 Starting script...",
      Event.print ("📂 Reading Excel file: " ++ input_file),
      Event.readExcel input_file sheet_index,
      Event.print ("❌ Error reading Excel file: " ++ e)] ∧
    (∀ host port, Event.smtpConnect host port ∉ script.main w s p) ∧
    (∀ f r m, Event.sendmail f r m ∉ script.main w s p) ∧
    (∀ pth, Event.fileOpen pth ∉ script.main w s p) := by
  have hmain : script.main w s p = [Event.print "🔄 Starting script...",
      Event.print ("📂 Reading Excel file: " ++ input_file),
      Event.readExcel input_file sheet_index,
      Event.print ("❌ Error reading Excel file: " ++ e)] := by
    unfold script.main
    rw [hE]
    rfl
  refine ⟨hmain, ?_, ?_, ?_⟩
  · intro host port; rw [hmain]; simp
  · intro f r m; rw [hmain]; simp
  · intro pth; rw [hmain]; simp

theorem main_read_failure_aborts_witness :
    readFailMainWorld.readExcel input_file sheet_index = Except.error "File not found" ∧
    script.main readFailMainWorld "s" "p" = [Event.print "🔄 Starting script...",
      Event.print ("📂 Reading Excel file: " ++ input_file),
      Event.readExcel input_file sheet_index,
      Event.print ("❌ Error reading Excel file: " ++ "File not found")] :=
  ⟨rfl, (main_read_failure_aborts readFailMainWorld "s" "p" "File not found" rfl).1⟩

theorem attachFail_print_notMem_smtpTry (w : World) (s p : String) (r : List String)
    (m : Message) (e' : String) :
    Event.print ("❌ Failed to attach file: " ++ e') ∉ (smtpTry w s p r m).1 := by
  intro hmem
  rcases smtpTry_mem_shape w s p r m _ hmem with h | h | h | h | h | h | h | h | h
  · simp only [Event.print.injEq] at h
    have hd := congrArg String.data h
    simp only [String.data_append, List.append_assoc] at hd
    have ht := congrArg (List.take 1) hd
    rw [List.take_append_of_le_length (by decide),
      List.take_append_of_le_length (by decide)] at ht
    exact absurd ht (by decide)
  · simp at h
  · simp at h
  · simp only [Event.print.injEq] at h
    have hd := congrArg String.data h
    simp only [String.data_append] at hd
    have ht := congrArg (List.take 1) hd
    rw [List.take_append_of_le_length (by decide)] at ht
    exact absurd ht (by decide)
  · simp at h
  · simp only [Event.print.injEq] at h
    have hd := congrArg String.data h
    simp only [String.data_append] at hd
    have ht := congrArg (List.take 1) hd
    rw [List.take_append_of_le_length (by decide)] at ht
    exact absurd ht (by decide)
  · simp at h
  · simp at h
  · simp only [Event.print.injEq] at h
    have hd := congrArg String.data h
    simp only [String.data_append, List.append_assoc] at hd
    have ht := congrArg (List.take 1) hd
    rw [List.take_append_of_le_length (by decide),
      List.take_append_of_le_length (by decide)] at ht
    exact absurd ht (by decide)

/-- C10: a falsy `attachment_path` (`none` or the empty string) skips the
attachment step entirely: the run is identical to one with no attachment
path, no file open is attempted, no attachment-failure line is ever
printed, and any transmitted message carries only the HTML part. -/
theorem send_email_falsy_attachment_skipped (w : World) (s p : String)
    (to_emails cc_emails : List String) (subject html_content : String)
    (ap : Option String) (hF : pyTruthy ap = false) :
    send_email w s p to_emails cc_emails subject html_content ap =
      send_email w s p to_emails cc_emails subject html_content none ∧
    (∀ pth, Event.fileOpen pth ∉
      send_email w s p to_emails cc_emails subject html_content ap) ∧
    (∀ e', Event.print ("❌ Failed to attach file: " ++ e') ∉
      send_email w s p to_emails cc_emails subject html_content ap) ∧
    (∀ f r m, Event.sendmail f r m ∈
        send_email w s p to_emails cc_emails subject html_content ap →
      m.parts = [MimePart.html html_content]) := by
  have hA : attachStep w ap = .ok ([], none) := by unfold attachStep; simp [hF]
  have hA0 : attachStep w (none : Option String) = Except.ok ([], none) := rfl
  have heq : send_email w s p to_emails cc_emails subject html_content ap =
      send_email w s p to_emails cc_emails subject html_content none := by
    rw [send_email_unfold_ok w s p to_emails cc_emails subject html_content ap [] none hA,
      send_email_unfold_ok w s p to_emails cc_emails subject html_content none [] none hA0]
  refine ⟨heq, ?_, ?_, ?_⟩
  · intro pth hmem
    rw [send_email_unfold_ok w s p to_emails cc_emails subject html_content ap [] none hA]
      at hmem
    rcases hS : smtpTry w s p (to_emails ++ cc_emails)
        (attachParts (mkMessage s to_emails cc_emails subject html_content) none)
      with ⟨sevs, err?⟩
    rw [hS] at hmem
    have hins : Event.fileOpen pth ∉ sevs := by
      intro hx
      rcases smtpTry_mem_shape w s p (to_emails ++ cc_emails) _ _ (by rw [hS]; exact hx)
        with h | h | h | h | h | h | h | h | h <;> simp at h
    rcases err? with _ | e
    · simp only [List.nil_append] at hmem
      exact hins hmem
    · simp only [List.nil_append, List.mem_append, List.mem_singleton] at hmem
      rcases hmem with h | h
      · exact hins h
      · simp at h
  · intro e' hmem
    rw [send_email_unfold_ok w s p to_emails cc_emails subject html_content ap [] none hA]
      at hmem
    rcases hS : smtpTry w s p (to_emails ++ cc_emails)
        (attachParts (mkMessage s to_emails cc_emails subject html_content) none)
      with ⟨sevs, err?⟩
    rw [hS] at hmem
    have hins : Event.print ("❌ Failed to attach file: " ++ e') ∉ sevs := by
      intro hx
      exact attachFail_print_notMem_smtpTry w s p (to_emails ++ cc_emails) _ e'
        (by rw [hS]; exact hx)
    rcases err? with _ | e
    · simp only [List.nil_append] at hmem
      exact hins hmem
    · simp only [List.nil_append, List.mem_append, List.mem_singleton] at hmem
      rcases hmem with h | h
      · exact hins h
      · simp only [Event.print.injEq] at h
        have hd := congrArg String.data h
        simp only [String.data_append, List.append_assoc] at hd
        have ht := congrArg (List.take 14) hd
        rw [List.take_append_of_le_length (by decide),
          List.take_append_of_le_length (by decide)] at ht
        exact absurd ht (by decide)
  · intro f r m hmem
    have hm := send_email_sendmail_mem_ok w s p to_emails cc_emails subject html_content
      ap [] none hA f r m hmem
    rw [hm.2.2]
    rfl

theorem send_email_falsy_attachment_skipped_witness :
    pyTruthy (some "") = false ∧
    send_email allOkWorld "s" "p" ["a@x.com"] ["b@x.com"] "subj" "<p>hi</p>" (some "") =
      send_email allOkWorld "s" "p" ["a@x.com"] ["b@x.com"] "subj" "<p>hi</p>" none :=
  ⟨rfl, (send_email_falsy_attachment_skipped allOkWorld "s" "p" ["a@x.com"] ["b@x.com"]
      "subj" "<p>hi</p>" (some "") rfl).1⟩
